import Mathlib

/-!
Verification development for the roc-toolkit receiver pipeline components:
the latency monitor (`roc_audio/latency_monitor.cpp`), the poison writer
(`roc_audio/poison_writer.cpp`) and the peer context (`roc_peer/context.cpp`).

The C++ code is shallowly embedded: member functions become pure Lean
functions over explicit state records, mutation becomes state passing,
pointers that may be null become `Option`, and functions that panic return
`Option` (with `none` for the panic). 32-bit unsigned RTP timestamps
(`packet::timestamp_t`) are `Nat` reduced modulo `2 ^ 32` where the code's
wrap-around behaviour matters; float quantities (scaling coefficients,
audio samples) are modelled as rationals, which is faithful for the
order-theoretic operations (`min`, `max`, comparisons) the claims concern.
-/

namespace Roc

/-- Width of `packet::timestamp_t`, the 32-bit unsigned RTP media timestamp. -/
def timestampMod : Nat := 2 ^ 32

/-- Modelled from the spec: `packet::timestamp_diff` (`roc_packet/units.h`, not
under `src/`): the wrap-safe signed difference of two unsigned media timestamps
"uses modular arithmetic over the timestamp width and returns a signed value
whose sign reflects after/before within a half-range window". -/
def timestamp_diff (a b : Nat) : Int :=
  let d : Nat := (a % timestampMod + timestampMod - b % timestampMod) % timestampMod
  if d < 2 ^ 31 then (d : Int) else (d : Int) - (timestampMod : Int)

/-- One second in nanoseconds (`core::Second`). -/
def Second : Int := 1000000000

/-- Modelled from the spec: the sample spec (`roc_audio/sample_spec`, not under
`src/`) provides the sample rate and the two fixed conversions between
wall-clock nanoseconds and media-timestamp sample counts. -/
structure SampleSpec where
  sample_rate : Nat
  deriving DecidableEq

/-- Modelled from the spec: `ns → media_ts` conversion, scaling nanoseconds by
the sample rate. -/
def SampleSpec.ns_2_rtp_timestamp (s : SampleSpec) (ns : Int) : Int :=
  ns * (s.sample_rate : Int) / Second

/-- Modelled from the spec: `media_ts → ns` conversion, the inverse scaling. -/
def SampleSpec.rtp_timestamp_2_ns (s : SampleSpec) (ts : Int) : Int :=
  ts * Second / (s.sample_rate : Int)

/-! ## Poison writer (`roc_audio/poison_writer.cpp`) -/

/-- Audio samples (`audio::sample_t`, a 32-bit float) modelled as rationals. -/
abbrev sample_t := ℚ

/-- Modelled from the spec: the sentinel sample value `SampleMax`
(`roc_audio/sample.h`, not under `src/`), the maximum sample magnitude used
as the poison sentinel. -/
def SampleMax : sample_t := 1

/-- The poison loop of `PoisonWriter::write`: overwrite every sample of the
frame with the sentinel (`for (n = 0; n < frame_size; n++) data[n] = SampleMax`). -/
def poison_samples : List sample_t → List sample_t
  | [] => []
  | _ :: rest => SampleMax :: poison_samples rest

/-- `PoisonWriter::write`: first hand the frame to the underlying frame
writer (modelled as a function from the frame's samples to the samples the
frame holds afterwards), then overwrite every sample with the sentinel. -/
def PoisonWriter.write (inner : List sample_t → List sample_t)
    (frame : List sample_t) : List sample_t :=
  poison_samples (inner frame)

/-! ## Peer context (`roc_peer/context.cpp`) -/

/-- State of `peer::Context`: validity of the two owned loops, and the
reference counter guarding destruction. The counter itself lives in the
header (not under `src/`); it is modelled from the spec as an integer
counter with unit increments and decrements. -/
structure Context where
  network_loop_valid : Bool
  control_loop_valid : Bool
  ref_counter_ : Int
  deriving DecidableEq

/-- `Context::valid`: both owned loops are valid. -/
def Context.valid (c : Context) : Bool :=
  c.network_loop_valid && c.control_loop_valid

/-- `Context::is_used`: the reference counter is non-zero. -/
def Context.is_used (c : Context) : Bool :=
  c.ref_counter_ != 0

/-- `Context::incref`: panic (`none`) on an invalid context, otherwise
increment the reference counter. -/
def Context.incref (c : Context) : Option Context :=
  if !c.valid then none
  else some { c with ref_counter_ := c.ref_counter_ + 1 }

/-- `Context::decref`: panic (`none`) on an invalid context, otherwise
decrement the reference counter. -/
def Context.decref (c : Context) : Option Context :=
  if !c.valid then none
  else some { c with ref_counter_ := c.ref_counter_ - 1 }

/-- `Context::~Context`: panic (`none`) when the context is still in use,
otherwise destruction completes. -/
def Context.destroy (c : Context) : Option Unit :=
  if c.is_used then none else some ()

/-! ## Latency monitor (`roc_audio/latency_monitor.cpp`)

The `FreqEstimator` and `ResamplerReader` collaborators live outside `src/`;
the spec treats them as external contracts (a deterministic estimator fed
latency samples and exposing a coefficient; a resampler whose `set_scaling`
may reject a ratio). They are modelled as abstract deterministic machines
over a state type, so every theorem below holds for any implementation. -/

/-- Abstract model of `audio::FreqEstimator` over a state type `σ`:
`update` consumes one latency observation, `freq_coeff` reads back the
current scaling coefficient. -/
structure FreqEstimator (σ : Type) where
  update : σ → Int → σ
  freq_coeff : σ → ℚ

/-- Abstract model of `audio::ResamplerReader` over a state type `ρ`:
`set_scaling` returns whether the ratio was accepted, plus the new state. -/
structure ResamplerReader (ρ : Type) where
  set_scaling : ρ → ℚ → Bool × ρ

/-- `audio::LatencyMonitorConfig` (the fields the monitor reads; `fe_profile`
only selects the estimator's gains, which are abstracted into the estimator
model). Durations are nanoseconds. -/
structure LatencyMonitorConfig where
  fe_enable : Bool
  fe_update_interval : Int
  min_latency : Int
  max_latency : Int
  max_scaling_delta : ℚ

/-- State of `audio::LatencyMonitor`, one field per data member of the C++
class (reader/queue/depacketizer references become per-call inputs, the
rate limiter only guards logging and is omitted). `fe_` is the possibly
unallocated estimator, `resampler_` the possibly null resampler pointer. -/
structure LatencyMonitor (σ ρ : Type) where
  update_interval_ : Nat
  update_pos_ : Nat
  has_update_pos_ : Bool
  freq_coeff_ : ℚ
  niq_latency_ : Int
  e2e_latency_ : Int
  has_niq_latency_ : Bool
  has_e2e_latency_ : Bool
  target_latency_ : Int
  min_latency_ : Int
  max_latency_ : Int
  max_scaling_delta_ : ℚ
  input_sample_spec_ : SampleSpec
  output_sample_spec_ : SampleSpec
  valid_ : Bool
  fe_ : Option σ
  resampler_ : Option ρ

/-- `LatencyMonitor::is_valid`. -/
def LatencyMonitor.is_valid {σ ρ : Type} (m : LatencyMonitor σ ρ) : Bool :=
  m.valid_

/-- `LatencyMonitor::check_latency_`: the niq bound check. -/
def LatencyMonitor.check_latency_ {σ ρ : Type} (m : LatencyMonitor σ ρ)
    (latency : Int) : Bool :=
  if latency < m.min_latency_ then false
  else if latency > m.max_latency_ then false
  else true

/-- `LatencyMonitor::update_niq_latency_`: when the depacketizer has started
and the incoming queue has a latest packet, record the wrap-safe signed
difference of the queue tail (`latest_packet->end()`) and the depacketizer
head (`depacketizer_.next_timestamp()`). Inputs are the observed collaborator
state at this call. -/
def LatencyMonitor.update_niq_latency_ {σ ρ : Type} (m : LatencyMonitor σ ρ)
    (dep_started : Bool) (dep_next_timestamp : Nat)
    (queue_latest_end : Option Nat) : LatencyMonitor σ ρ :=
  if !dep_started then m
  else
    match queue_latest_end with
    | none => m
    | some niq_tail =>
      { m with niq_latency_ := timestamp_diff niq_tail dep_next_timestamp,
               has_niq_latency_ := true }

/-- `LatencyMonitor::update_e2e_latency_`: when the frame carries a non-zero
capture wall-clock timestamp, record `ns_2_rtp_timestamp(now − capture)`.
`now` models `core::timestamp(core::ClockUnix)` at this call. -/
def LatencyMonitor.update_e2e_latency_ {σ ρ : Type} (m : LatencyMonitor σ ρ)
    (capture_ts now : Int) : LatencyMonitor σ ρ :=
  if capture_ts = 0 then m
  else
    { m with
      e2e_latency_ := m.input_sample_spec_.ns_2_rtp_timestamp (now - capture_ts),
      has_e2e_latency_ := true }

/-- Result of `LatencyMonitor::read`: the returned boolean plus the state
after the call. -/
structure ReadResult (σ ρ : Type) where
  ok : Bool
  state : LatencyMonitor σ ρ

/-- `LatencyMonitor::read`: panic (`none`) on an invalid monitor; otherwise
forward the underlying frame reader's result (`frame_read_ok`), updating the
e2e latency only when that read succeeded. -/
def LatencyMonitor.read {σ ρ : Type} (m : LatencyMonitor σ ρ)
    (frame_read_ok : Bool) (capture_ts now : Int) : Option (ReadResult σ ρ) :=
  if !m.is_valid then none
  else if !frame_read_ok then some ⟨false, m⟩
  else some ⟨true, m.update_e2e_latency_ capture_ts now⟩

/-- The body of the `while (stream_position >= update_pos_)` loop of
`LatencyMonitor::update_scaling_`, structurally recursive on a gas bound.
Returns (number of `fe_->update` invocations, final `update_pos_`, final
estimator state). Both operands of the comparison are `uint32_t`, so the
`update_pos_ += update_interval_` increment wraps modulo `2^32`, exactly as
in the source. Because the position sequence
`update_pos + k * update_interval (mod 2^32)` repeats with a period dividing
`2^32`, any terminating run of the C++ loop exits within `2^32 - 1`
iterations; gas `2^32` therefore reproduces every terminating execution
exactly, and gas exhaustion happens only on inputs where the C++ loop never
exits (a zero interval, or every position on the cycle staying at or below
`stream_position`). -/
def fe_loop_aux {σ : Type} (feM : FreqEstimator σ)
    (update_interval stream_position : Nat) (latency : Int) :
    Nat → Nat → σ → Nat × Nat × σ
  | 0, update_pos, fe => (0, update_pos, fe)
  | gas + 1, update_pos, fe =>
    if update_pos ≤ stream_position then
      let r := fe_loop_aux feM update_interval stream_position latency gas
        ((update_pos + update_interval) % timestampMod) (feM.update fe latency)
      (r.1 + 1, r.2.1, r.2.2)
    else (0, update_pos, fe)

/-- The `while` loop of `LatencyMonitor::update_scaling_` with gas `2^32`,
which covers every terminating execution of the C++ loop (see
`fe_loop_aux`). -/
def fe_loop {σ : Type} (feM : FreqEstimator σ)
    (update_interval stream_position : Nat) (latency : Int)
    (update_pos : Nat) (fe : σ) : Nat × Nat × σ :=
  fe_loop_aux feM update_interval stream_position latency
    timestampMod update_pos fe

/-- Result of `LatencyMonitor::update_scaling_`: the returned boolean, the
state after the call, and the call's observable interactions with the
collaborators (the latency value fed to the estimator, how many times the
estimator's `update` ran, and the coefficient passed to `set_scaling`). -/
structure ScalingResult (σ ρ : Type) where
  ok : Bool
  state : LatencyMonitor σ ρ
  fe_input : Int
  fe_updates : Nat
  sent_scaling : ℚ

/-- `LatencyMonitor::update_scaling_` (the caller has already checked that
`fe_` and `resampler_` are non-null, matching the `roc_panic_if_not`
assertions): clamp negative latency to zero, initialize the update position
on first use, run the estimator once per reached update interval, clamp the
read-back coefficient to `[1 − max_scaling_delta, 1 + max_scaling_delta]`,
and push it to the resampler. The `stream_position` parameter is a
`packet::timestamp_t`, so it is reduced modulo `2^32` on entry, and the
update position advances with 32-bit wrap-around (see `fe_loop_aux`). -/
def LatencyMonitor.update_scaling_ {σ ρ : Type} (m : LatencyMonitor σ ρ)
    (feM : FreqEstimator σ) (rsM : ResamplerReader ρ) (fe : σ) (rs : ρ)
    (stream_position : Nat) (latency : Int) : ScalingResult σ ρ :=
  let stream_position : Nat := stream_position % timestampMod
  let latency' : Int := if latency < 0 then 0 else latency
  let update_pos : Nat := if !m.has_update_pos_ then stream_position else m.update_pos_
  let r := fe_loop feM m.update_interval_ stream_position latency' update_pos fe
  let raw : ℚ := feM.freq_coeff r.2.2
  let freq_coeff : ℚ := max (min raw (1 + m.max_scaling_delta_)) (1 - m.max_scaling_delta_)
  let s := rsM.set_scaling rs freq_coeff
  { ok := s.1,
    state := { m with has_update_pos_ := true, update_pos_ := r.2.1,
                      freq_coeff_ := freq_coeff, fe_ := some r.2.2,
                      resampler_ := some s.2 },
    fe_input := latency',
    fe_updates := r.1,
    sent_scaling := freq_coeff }

/-- Result of `LatencyMonitor::update`: the returned boolean, the state after
the call, whether the bound check ran and its verdict, and the rate-control
step's trace when it was reached. -/
structure UpdateResult (σ ρ : Type) where
  ok : Bool
  state : LatencyMonitor σ ρ
  checked_bounds : Bool
  bounds_ok : Bool
  scaling : Option (ScalingResult σ ρ)

/-- `LatencyMonitor::update`: panic (`none`) on an invalid monitor; refresh
the niq reading from the depacketizer and queue; when a reading is present,
check bounds (returning `false` on violation) and, with the estimator
enabled, run the rate-control step (returning `false` when the resampler
rejects the coefficient). `report_latency_` only logs and is omitted. The
`none` in the estimator-without-resampler case is the `roc_panic_if_not`
inside `update_scaling_`, unreachable from a valid construction. -/
def LatencyMonitor.update {σ ρ : Type} (feM : FreqEstimator σ)
    (rsM : ResamplerReader ρ) (m : LatencyMonitor σ ρ)
    (dep_started : Bool) (dep_next_timestamp : Nat)
    (queue_latest_end : Option Nat) (stream_position : Nat) :
    Option (UpdateResult σ ρ) :=
  if !m.is_valid then none
  else
    let m1 := m.update_niq_latency_ dep_started dep_next_timestamp queue_latest_end
    if m1.has_niq_latency_ then
      if !(m1.check_latency_ m1.niq_latency_) then
        some { ok := false, state := m1, checked_bounds := true,
               bounds_ok := false, scaling := none }
      else
        match m1.fe_ with
        | some fe =>
          match m1.resampler_ with
          | some rs =>
            let r := m1.update_scaling_ feM rsM fe rs stream_position m1.niq_latency_
            some { ok := r.ok, state := r.state, checked_bounds := true,
                   bounds_ok := true, scaling := some r }
          | none => none
        | none =>
          some { ok := true, state := m1, checked_bounds := true,
                 bounds_ok := true, scaling := none }
    else
      some { ok := true, state := m1, checked_bounds := false,
             bounds_ok := true, scaling := none }

/-- `LatencyMonitorStats` (nanosecond readings reported by `stats`). -/
structure LatencyMonitorStats where
  niq_latency : Int
  e2e_latency : Int

/-- `LatencyMonitor::stats`: panic (`none`) on an invalid monitor, otherwise
report both latencies converted back to nanoseconds. -/
def LatencyMonitor.stats {σ ρ : Type} (m : LatencyMonitor σ ρ) :
    Option LatencyMonitorStats :=
  if !m.is_valid then none
  else some { niq_latency := m.input_sample_spec_.rtp_timestamp_2_ns m.niq_latency_,
              e2e_latency := m.input_sample_spec_.rtp_timestamp_2_ns m.e2e_latency_ }

/-- `LatencyMonitor::init_scaling_`: validate the rates and set the initial
unity scaling. Returns the outcome and the updated resampler state. -/
def LatencyMonitor.init_scaling_ {ρ : Type} (rsM : ResamplerReader ρ) (rs : ρ)
    (input_sample_rate output_sample_rate : Nat) : Bool × ρ :=
  if input_sample_rate = 0 ∨ output_sample_rate = 0 then (false, rs)
  else
    let s := rsM.set_scaling rs 1
    if s.1 then (true, s.2) else (false, s.2)

/-- The `LatencyMonitor` constructor: the member-initializer list builds the
state with `valid_ = false`, then the body validates the configuration,
allocates the estimator (allocation modelled as always succeeding, with
`fe_init` its fresh state) and sets the initial scaling; only if everything
passes is `valid_` set. `none` models the `roc_panic` when the estimator is
enabled but the resampler pointer is null. Timestamp fields are converted
from nanoseconds by the input sample spec, the unsigned `update_interval_`
with the 32-bit cast written out. -/
def LatencyMonitor.construct {σ ρ : Type} (rsM : ResamplerReader ρ)
    (resampler : Option ρ) (fe_init : σ) (config : LatencyMonitorConfig)
    (target_latency : Int)
    (input_sample_spec output_sample_spec : SampleSpec) :
    Option (LatencyMonitor σ ρ) :=
  let m0 : LatencyMonitor σ ρ :=
    { update_interval_ :=
        ((input_sample_spec.ns_2_rtp_timestamp config.fe_update_interval) %
          (timestampMod : Int)).toNat,
      update_pos_ := 0,
      has_update_pos_ := false,
      freq_coeff_ := 0,
      niq_latency_ := 0,
      e2e_latency_ := 0,
      has_niq_latency_ := false,
      has_e2e_latency_ := false,
      target_latency_ := input_sample_spec.ns_2_rtp_timestamp target_latency,
      min_latency_ := input_sample_spec.ns_2_rtp_timestamp config.min_latency,
      max_latency_ := input_sample_spec.ns_2_rtp_timestamp config.max_latency,
      max_scaling_delta_ := config.max_scaling_delta,
      input_sample_spec_ := input_sample_spec,
      output_sample_spec_ := output_sample_spec,
      valid_ := false,
      fe_ := none,
      resampler_ := resampler }
  if target_latency < config.min_latency ∨ target_latency > config.max_latency
      ∨ target_latency ≤ 0 then
    some m0
  else if config.fe_enable then
    if config.fe_update_interval ≤ 0 then some m0
    else
      match resampler with
      | none => none
      | some rs =>
        let m1 := { m0 with fe_ := some fe_init }
        let s := LatencyMonitor.init_scaling_ rsM rs
          input_sample_spec.sample_rate output_sample_spec.sample_rate
        let m2 := { m1 with resampler_ := some s.2 }
        if s.1 then some { m2 with valid_ := true } else some m2
  else some { m0 with valid_ := true }

/-- A concrete frequency-estimator instance (constant coefficient 3). -/
def wFeM : FreqEstimator Unit :=
  { update := fun s _ => s, freq_coeff := fun _ => 3 }

/-- A concrete resampler instance accepting every ratio. -/
def wRsM : ResamplerReader Unit :=
  { set_scaling := fun r _ => (true, r) }

/-- A concrete 48 kHz sample spec. -/
def wSpec : SampleSpec := { sample_rate := 48000 }

/-- A concrete valid monitor with the estimator enabled, bounds `[0, 1000]`
timestamp units, update interval 5 and scaling delta 1. -/
def wMon : LatencyMonitor Unit Unit :=
  { update_interval_ := 5, update_pos_ := 0, has_update_pos_ := false,
    freq_coeff_ := 0, niq_latency_ := 0, e2e_latency_ := 0,
    has_niq_latency_ := false, has_e2e_latency_ := false,
    target_latency_ := 100, min_latency_ := 0, max_latency_ := 1000,
    max_scaling_delta_ := 1, input_sample_spec_ := wSpec,
    output_sample_spec_ := wSpec, valid_ := true, fe_ := some (),
    resampler_ := some () }

/-- A concrete call to `update` on `wMon`: depacketizer started at timestamp
0, queue tail at 100, stream position 7. -/
def wUpd : Option (UpdateResult Unit Unit) :=
  LatencyMonitor.update wFeM wRsM wMon true 0 (some 100) 7

/-- The result of the concrete `update` call. -/
def wu : UpdateResult Unit Unit := wUpd.get (by rfl)

/-- The rate-control trace of the concrete `update` call. -/
def ws : ScalingResult Unit Unit := wu.scaling.get (by rfl)

/-- A configuration whose target latency is invalid (negative target). -/
def wCfgBad : LatencyMonitorConfig :=
  { fe_enable := true, fe_update_interval := 10000000, min_latency := 0,
    max_latency := 1000000000, max_scaling_delta := 1 }

/-- The monitor constructed from the invalid configuration. -/
def wBad : LatencyMonitor Unit Unit :=
  (LatencyMonitor.construct wRsM (some ()) () wCfgBad (-5) wSpec wSpec).get (by rfl)

/-! ## Helper lemmas -/

@[simp] lemma update_niq_latency_fe {σ ρ : Type} (m : LatencyMonitor σ ρ)
    (ds : Bool) (dn : Nat) (ql : Option Nat) :
    (m.update_niq_latency_ ds dn ql).fe_ = m.fe_ := by
  unfold LatencyMonitor.update_niq_latency_
  split
  · rfl
  · split <;> rfl

@[simp] lemma update_niq_latency_resampler {σ ρ : Type} (m : LatencyMonitor σ ρ)
    (ds : Bool) (dn : Nat) (ql : Option Nat) :
    (m.update_niq_latency_ ds dn ql).resampler_ = m.resampler_ := by
  unfold LatencyMonitor.update_niq_latency_
  split
  · rfl
  · split <;> rfl

@[simp] lemma update_niq_latency_delta {σ ρ : Type} (m : LatencyMonitor σ ρ)
    (ds : Bool) (dn : Nat) (ql : Option Nat) :
    (m.update_niq_latency_ ds dn ql).max_scaling_delta_ = m.max_scaling_delta_ := by
  unfold LatencyMonitor.update_niq_latency_
  split
  · rfl
  · split <;> rfl

@[simp] lemma update_niq_latency_valid {σ ρ : Type} (m : LatencyMonitor σ ρ)
    (ds : Bool) (dn : Nat) (ql : Option Nat) :
    (m.update_niq_latency_ ds dn ql).valid_ = m.valid_ := by
  unfold LatencyMonitor.update_niq_latency_
  split
  · rfl
  · split <;> rfl

@[simp] lemma update_niq_latency_min {σ ρ : Type} (m : LatencyMonitor σ ρ)
    (ds : Bool) (dn : Nat) (ql : Option Nat) :
    (m.update_niq_latency_ ds dn ql).min_latency_ = m.min_latency_ := by
  unfold LatencyMonitor.update_niq_latency_
  split
  · rfl
  · split <;> rfl

@[simp] lemma update_niq_latency_max {σ ρ : Type} (m : LatencyMonitor σ ρ)
    (ds : Bool) (dn : Nat) (ql : Option Nat) :
    (m.update_niq_latency_ ds dn ql).max_latency_ = m.max_latency_ := by
  unfold LatencyMonitor.update_niq_latency_
  split
  · rfl
  · split <;> rfl

@[simp] lemma update_e2e_latency_valid {σ ρ : Type} (m : LatencyMonitor σ ρ)
    (capture_ts now : Int) :
    (m.update_e2e_latency_ capture_ts now).valid_ = m.valid_ := by
  unfold LatencyMonitor.update_e2e_latency_
  split <;> rfl

@[simp] lemma update_scaling_state_valid {σ ρ : Type} (m : LatencyMonitor σ ρ)
    (feM : FreqEstimator σ) (rsM : ResamplerReader ρ) (fe : σ) (rs : ρ)
    (sp : Nat) (lat : Int) :
    ((m.update_scaling_ feM rsM fe rs sp lat).state).valid_ = m.valid_ := by
  simp [LatencyMonitor.update_scaling_]

/-- The final estimator state of the loop is always its `update` iterated as
many times as the loop ran, for any gas and regardless of wrap-around. -/
lemma fe_loop_aux_state {σ : Type} (feM : FreqEstimator σ) (ui sp : Nat)
    (lat : Int) :
    ∀ gas up fe,
      (fe_loop_aux feM ui sp lat gas up fe).2.2 =
        (fun s => feM.update s lat)^[(fe_loop_aux feM ui sp lat gas up fe).1] fe := by
  intro gas
  induction gas with
  | zero =>
    intro up fe
    rfl
  | succ gas ih =>
    intro up fe
    by_cases h : up ≤ sp
    · rw [fe_loop_aux, if_pos h]
      exact (ih _ (feM.update fe lat)).trans (Function.iterate_succ_apply _ _ _).symm
    · rw [fe_loop_aux, if_neg h]
      rfl

lemma clamp_abs_le {x δ : ℚ} (h : 0 ≤ δ) :
    |max (min x (1 + δ)) (1 - δ) - 1| ≤ δ := by
  rw [abs_le]
  constructor
  · have h1 := le_max_right (min x (1 + δ)) (1 - δ)
    linarith
  · have h1 : min x (1 + δ) ≤ 1 + δ := min_le_right _ _
    have h2 : (1 - δ : ℚ) ≤ 1 + δ := by linarith
    have h3 := max_le h1 h2
    linarith

/-- Inversion of `LatencyMonitor::update`: whenever a call reaches the
rate-control step, its trace is the result of `update_scaling_` on the state
left by `update_niq_latency_`, and the call's outcome is the step's outcome. -/
lemma update_scaling_trace {σ ρ : Type} (feM : FreqEstimator σ)
    (rsM : ResamplerReader ρ) (m : LatencyMonitor σ ρ) (ds : Bool) (dn : Nat)
    (ql : Option Nat) (sp : Nat) (u : UpdateResult σ ρ) (s : ScalingResult σ ρ)
    (h1 : LatencyMonitor.update feM rsM m ds dn ql sp = some u)
    (h2 : u.scaling = some s) :
    ∃ fe rs, m.fe_ = some fe ∧ m.resampler_ = some rs ∧
      s = (m.update_niq_latency_ ds dn ql).update_scaling_ feM rsM fe rs sp
            (m.update_niq_latency_ ds dn ql).niq_latency_ ∧
      u.ok = s.ok ∧ u.bounds_ok = true ∧ u.state = s.state ∧
      (m.update_niq_latency_ ds dn ql).has_niq_latency_ = true ∧
      (m.update_niq_latency_ ds dn ql).check_latency_
        (m.update_niq_latency_ ds dn ql).niq_latency_ = true := by
  simp only [LatencyMonitor.update] at h1
  split at h1
  · exact absurd h1 (by simp)
  · split at h1
    · split at h1
      · obtain rfl := Option.some.inj h1
        simp at h2
      · split at h1
        · split at h1
          · obtain rfl := Option.some.inj h1
            simp only at h2
            obtain rfl := Option.some.inj h2
            rename_i hval hniq hchk xfe fe hfe xrs rs hrs
            refine ⟨fe, rs, ?_, ?_, rfl, rfl, rfl, rfl, hniq, ?_⟩
            · rw [← update_niq_latency_fe m ds dn ql, hfe]
            · rw [← update_niq_latency_resampler m ds dn ql, hrs]
            · simpa using hchk
          · exact absurd h1 (by simp)
        · obtain rfl := Option.some.inj h1
          simp at h2
    · obtain rfl := Option.some.inj h1
      simp at h2

lemma poison_samples_eq_replicate (l : List sample_t) :
    poison_samples l = List.replicate l.length SampleMax := by
  induction l with
  | nil => rfl
  | cons x rest ih => simp [poison_samples, ih, List.replicate_succ]

/-! ## Claim theorems: poison writer and context -/

/-- Claim C8: for every call to `PoisonWriter::write(frame)`, after the frame
is first passed to the underlying frame writer, every one of the frame's
`num_samples()` samples is overwritten with the sentinel `SampleMax`, so on
return no payload data remains in the frame. -/
theorem C8_poison_write_overwrites_all (inner : List sample_t → List sample_t)
    (frame : List sample_t) :
    PoisonWriter.write inner frame =
      List.replicate (inner frame).length SampleMax := by
  unfold PoisonWriter.write
  exact poison_samples_eq_replicate (inner frame)

/-- Claim C9: the peer context's reference counter guards destruction:
`incref` increments and `decref` decrements the counter (each panicking on an
invalid context), `is_used` is true exactly when the counter is non-zero, and
destroying a context whose counter is non-zero panics instead of completing. -/
theorem C9_context_refcount (c : Context) :
    (c.valid = true →
      Context.incref c = some { c with ref_counter_ := c.ref_counter_ + 1 }) ∧
    (c.valid = false → Context.incref c = none) ∧
    (c.valid = true →
      Context.decref c = some { c with ref_counter_ := c.ref_counter_ - 1 }) ∧
    (c.valid = false → Context.decref c = none) ∧
    (c.is_used = true ↔ c.ref_counter_ ≠ 0) ∧
    (c.ref_counter_ ≠ 0 → Context.destroy c = none) ∧
    (c.ref_counter_ = 0 → Context.destroy c = some ()) := by
  refine ⟨?_, ?_, ?_, ?_, ?_, ?_, ?_⟩ <;>
    simp [Context.incref, Context.decref, Context.destroy, Context.is_used]

/-- Witness for C9 at a concrete context: a valid context with counter 2
increments to 3. -/
theorem C9_context_refcount_witness :
    Context.incref ⟨true, true, 2⟩ = some ⟨true, true, 3⟩ :=
  (C9_context_refcount ⟨true, true, 2⟩).1 rfl

/-! ## Claim theorems: latency monitor -/

/-- Claim C1: for every call to `LatencyMonitor::update` that reaches the
rate-control step, the scaling coefficient passed to
`ResamplerReader::set_scaling` satisfies `|r − 1| ≤ max_scaling_delta`: the
raw estimator output is clamped to
`[1 − max_scaling_delta, 1 + max_scaling_delta]` before being handed to the
resampler (for any meaningful, i.e. non-negative, clamp half-width). -/
theorem C1_scaling_clamped {σ ρ : Type} (feM : FreqEstimator σ)
    (rsM : ResamplerReader ρ) (m : LatencyMonitor σ ρ) (ds : Bool) (dn : Nat)
    (ql : Option Nat) (sp : Nat) (u : UpdateResult σ ρ) (s : ScalingResult σ ρ)
    (hδ : 0 ≤ m.max_scaling_delta_)
    (h1 : LatencyMonitor.update feM rsM m ds dn ql sp = some u)
    (h2 : u.scaling = some s) :
    |s.sent_scaling - 1| ≤ m.max_scaling_delta_ := by
  obtain ⟨fe, rs, hfe, hrs, hs, hok, hb, hst, hniq, hchk⟩ :=
    update_scaling_trace feM rsM m ds dn ql sp u s h1 h2
  rw [hs]
  simp only [LatencyMonitor.update_scaling_, update_niq_latency_delta]
  exact clamp_abs_le hδ

/-- Witness for C1 at the concrete `update` call `wUpd`. -/
theorem C1_scaling_clamped_witness :
    |ws.sent_scaling - 1| ≤ wMon.max_scaling_delta_ :=
  C1_scaling_clamped wFeM wRsM wMon true 0 (some 100) 7 wu ws (by decide)
    (Option.some_get _).symm (Option.some_get _).symm

/-- Claim C2: for every `LatencyMonitor::update` call on a valid monitor: when
a niq reading is present and it lies below `min_latency` or above
`max_latency`, the call returns `false` (the out-of-bounds signal); when it
lies within the bounds, the bound check passes; and when no niq reading is
present, the call returns `true` without checking bounds. -/
theorem C2_bound_check {σ ρ : Type} (feM : FreqEstimator σ)
    (rsM : ResamplerReader ρ) (m : LatencyMonitor σ ρ) (ds : Bool) (dn : Nat)
    (ql : Option Nat) (sp : Nat) (u : UpdateResult σ ρ)
    (hv : m.valid_ = true)
    (h1 : LatencyMonitor.update feM rsM m ds dn ql sp = some u) :
    ((m.update_niq_latency_ ds dn ql).has_niq_latency_ = true →
      ((m.update_niq_latency_ ds dn ql).niq_latency_ < m.min_latency_ ∨
        (m.update_niq_latency_ ds dn ql).niq_latency_ > m.max_latency_) →
      u.ok = false) ∧
    ((m.update_niq_latency_ ds dn ql).has_niq_latency_ = true →
      m.min_latency_ ≤ (m.update_niq_latency_ ds dn ql).niq_latency_ →
      (m.update_niq_latency_ ds dn ql).niq_latency_ ≤ m.max_latency_ →
      (m.update_niq_latency_ ds dn ql).check_latency_
        (m.update_niq_latency_ ds dn ql).niq_latency_ = true) ∧
    ((m.update_niq_latency_ ds dn ql).has_niq_latency_ = false →
      u.ok = true ∧ u.checked_bounds = false) := by
  refine ⟨?_, ?_, ?_⟩
  · intro hniq hoob
    have hchk : (m.update_niq_latency_ ds dn ql).check_latency_
        (m.update_niq_latency_ ds dn ql).niq_latency_ = false := by
      unfold LatencyMonitor.check_latency_
      rcases hoob with h | h
      · rw [if_pos]
        rwa [update_niq_latency_min]
      · by_cases hlt : (m.update_niq_latency_ ds dn ql).niq_latency_ <
            (m.update_niq_latency_ ds dn ql).min_latency_
        · rw [if_pos hlt]
        · rw [if_neg hlt, if_pos]
          rwa [update_niq_latency_max]
    have heval : LatencyMonitor.update feM rsM m ds dn ql sp =
        some { ok := false, state := m.update_niq_latency_ ds dn ql,
               checked_bounds := true, bounds_ok := false, scaling := none } := by
      simp [LatencyMonitor.update, LatencyMonitor.is_valid, hv, hniq, hchk]
    rw [heval] at h1
    obtain rfl := Option.some.inj h1
    rfl
  · intro hniq hmin hmax
    have h1' : ¬ ((m.update_niq_latency_ ds dn ql).niq_latency_ <
        (m.update_niq_latency_ ds dn ql).min_latency_) := by
      rw [update_niq_latency_min]
      omega
    have h2' : ¬ ((m.update_niq_latency_ ds dn ql).niq_latency_ >
        (m.update_niq_latency_ ds dn ql).max_latency_) := by
      rw [update_niq_latency_max]
      omega
    unfold LatencyMonitor.check_latency_
    rw [if_neg h1', if_neg h2']
  · intro hniq
    have heval : LatencyMonitor.update feM rsM m ds dn ql sp =
        some { ok := true, state := m.update_niq_latency_ ds dn ql,
               checked_bounds := false, bounds_ok := true, scaling := none } := by
      simp [LatencyMonitor.update, LatencyMonitor.is_valid, hv, hniq]
    rw [heval] at h1
    obtain rfl := Option.some.inj h1
    exact ⟨rfl, rfl⟩

/-- Witness for C2 at the concrete `update` call `wUpd` (niq reading 100,
bounds `[0, 1000]`): the in-bounds branch of the bound check passes. -/
theorem C2_bound_check_witness :
    (wMon.update_niq_latency_ true 0 (some 100)).check_latency_
      (wMon.update_niq_latency_ true 0 (some 100)).niq_latency_ = true :=
  (C2_bound_check wFeM wRsM wMon true 0 (some 100) 7 wu rfl
    (Option.some_get _).symm).2.1 rfl (by decide) (by decide)

/-- Claim C3: `LatencyMonitor::update_niq_latency_` sets the niq reading to
the wrap-safe signed difference of the latest queued packet's end timestamp
and the depacketizer's next timestamp when the depacketizer has started and
the queue is non-empty, and leaves the reading unchanged otherwise; the
modelled `timestamp_diff` is wrap-safe: congruent to the true difference
modulo `2^32` and confined to the signed half-range window. -/
theorem C3_niq_reading {σ ρ : Type} (m : LatencyMonitor σ ρ) (ds : Bool)
    (dn : Nat) (ql : Option Nat) :
    (∀ tail, ds = true → ql = some tail →
      m.update_niq_latency_ ds dn ql =
        { m with niq_latency_ := timestamp_diff tail dn,
                 has_niq_latency_ := true }) ∧
    (ds = false → m.update_niq_latency_ ds dn ql = m) ∧
    (ql = none → m.update_niq_latency_ ds dn ql = m) ∧
    (∀ a b : Nat,
      (timestamp_diff a b) % (2 ^ 32 : Int) = ((a : Int) - (b : Int)) % 2 ^ 32 ∧
      -(2 ^ 31) ≤ timestamp_diff a b ∧ timestamp_diff a b < 2 ^ 31) := by
  refine ⟨?_, ?_, ?_, ?_⟩
  · intro tail hds hql
    subst hds
    subst hql
    rfl
  · intro hds
    subst hds
    rfl
  · intro hql
    subst hql
    unfold LatencyMonitor.update_niq_latency_
    split <;> rfl
  · intro a b
    simp only [timestamp_diff, timestampMod]
    have ha : a % 2 ^ 32 < 2 ^ 32 := Nat.mod_lt _ (by norm_num)
    have hb : b % 2 ^ 32 < 2 ^ 32 := Nat.mod_lt _ (by norm_num)
    have ha' : (a : Int) % 2 ^ 32 = ((a % 2 ^ 32 : Nat) : Int) := by
      push_cast
      omega
    have hb' : (b : Int) % 2 ^ 32 = ((b % 2 ^ 32 : Nat) : Int) := by
      push_cast
      omega
    split <;> refine ⟨?_, by push_cast; omega, by push_cast; omega⟩ <;>
      push_cast <;> omega

/-- Witness for C3 at the concrete inputs of `wUpd`: queue tail 100,
depacketizer head 0. -/
theorem C3_niq_reading_witness :
    wMon.update_niq_latency_ true 0 (some 100) =
      { wMon with niq_latency_ := timestamp_diff 100 0,
                  has_niq_latency_ := true } :=
  (C3_niq_reading wMon true 0 (some 100)).1 100 rfl rfl

/-- Claim C5: construction-time validation fails once and the object reports
invalid forever after: a target latency below `min_latency`, above
`max_latency` or non-positive (or, with the estimator enabled, a
non-positive `fe_update_interval`) leaves the constructed monitor invalid;
no later operation changes the validity flag; and `read`, `update` and
`stats` on an invalid monitor all panic (`none`) instead of proceeding. -/
theorem C5_construction_validation {σ ρ : Type} (rsM : ResamplerReader ρ)
    (resampler : Option ρ) (fe_init : σ) (config : LatencyMonitorConfig)
    (target_latency : Int) (ispec ospec : SampleSpec) (feM : FreqEstimator σ) :
    ((target_latency < config.min_latency ∨ target_latency > config.max_latency
        ∨ target_latency ≤ 0) ∨
      (config.fe_enable = true ∧ config.fe_update_interval ≤ 0) →
      ∀ m : LatencyMonitor σ ρ,
        LatencyMonitor.construct rsM resampler fe_init config target_latency
          ispec ospec = some m → m.is_valid = false) ∧
    (∀ m : LatencyMonitor σ ρ, m.is_valid = false →
      (∀ ds dn ql sp, LatencyMonitor.update feM rsM m ds dn ql sp = none) ∧
      (∀ fro cap now, LatencyMonitor.read m fro cap now = none) ∧
      LatencyMonitor.stats m = none) ∧
    (∀ (m : LatencyMonitor σ ρ) ds dn ql sp u,
      LatencyMonitor.update feM rsM m ds dn ql sp = some u →
      u.state.valid_ = m.valid_) ∧
    (∀ (m : LatencyMonitor σ ρ) fro cap now r,
      LatencyMonitor.read m fro cap now = some r →
      r.state.valid_ = m.valid_) := by
  refine ⟨?_, ?_, ?_, ?_⟩
  · intro hbad m hm
    unfold LatencyMonitor.construct at hm
    rcases hbad with hbad | hbad
    · rw [if_pos hbad] at hm
      obtain rfl := Option.some.inj hm
      rfl
    · by_cases hfirst : target_latency < config.min_latency ∨
          target_latency > config.max_latency ∨ target_latency ≤ 0
      · rw [if_pos hfirst] at hm
        obtain rfl := Option.some.inj hm
        rfl
      · rw [if_neg hfirst] at hm
        simp only [hbad.1, if_pos hbad.2, if_true] at hm
        obtain rfl := Option.some.inj hm
        rfl
  · intro m hm
    have hm' : m.valid_ = false := hm
    refine ⟨?_, ?_, ?_⟩
    · intro ds dn ql sp
      simp [LatencyMonitor.update, LatencyMonitor.is_valid, hm']
    · intro fro cap now
      simp [LatencyMonitor.read, LatencyMonitor.is_valid, hm']
    · simp [LatencyMonitor.stats, LatencyMonitor.is_valid, hm']
  · intro m ds dn ql sp u hu
    simp only [LatencyMonitor.update] at hu
    split at hu
    · exact absurd hu (by simp)
    · split at hu
      · split at hu
        · obtain rfl := Option.some.inj hu
          simp
        · split at hu
          · split at hu
            · obtain rfl := Option.some.inj hu
              simp
            · exact absurd hu (by simp)
          · obtain rfl := Option.some.inj hu
            simp
      · obtain rfl := Option.some.inj hu
        simp
  · intro m fro cap now r hr
    simp only [LatencyMonitor.read] at hr
    split at hr
    · exact absurd hr (by simp)
    · split at hr
      · obtain rfl := Option.some.inj hr
        rfl
      · obtain rfl := Option.some.inj hr
        simp

/-- Witness for C5 at the concrete invalid construction `wBad` (negative
target latency): the constructed monitor reports invalid. -/
theorem C5_construction_validation_witness : wBad.is_valid = false :=
  (C5_construction_validation wRsM (some ()) () wCfgBad (-5) wSpec wSpec
      wFeM).1 (Or.inl (Or.inr (Or.inr (by decide)))) wBad
    (Option.some_get _).symm

/-- Claim C6: for every successful `LatencyMonitor::read`: when the frame
carries a non-zero capture wall-clock timestamp, the e2e reading becomes
`ns_2_rtp_timestamp(now − capture)` with the input sample spec and is marked
present; a zero capture timestamp leaves the reading unchanged; and `read`
returns `false` exactly when the underlying frame reader's read returns
`false`, in which case the e2e reading is not updated. -/
theorem C6_read_e2e {σ ρ : Type} (m : LatencyMonitor σ ρ) (fro : Bool)
    (cap now : Int) (hv : m.valid_ = true) :
    (LatencyMonitor.read m false cap now = some ⟨false, m⟩) ∧
    (cap ≠ 0 → LatencyMonitor.read m true cap now =
      some ⟨true,
        { m with
          e2e_latency_ := m.input_sample_spec_.ns_2_rtp_timestamp (now - cap),
          has_e2e_latency_ := true }⟩) ∧
    (cap = 0 → LatencyMonitor.read m true cap now = some ⟨true, m⟩) ∧
    (∀ ok st, LatencyMonitor.read m fro cap now = some ⟨ok, st⟩ → ok = fro) := by
  refine ⟨?_, ?_, ?_, ?_⟩
  · simp [LatencyMonitor.read, LatencyMonitor.is_valid, hv]
  · intro hcap
    simp [LatencyMonitor.read, LatencyMonitor.is_valid, hv,
      LatencyMonitor.update_e2e_latency_, hcap]
  · intro hcap
    simp [LatencyMonitor.read, LatencyMonitor.is_valid, hv,
      LatencyMonitor.update_e2e_latency_, hcap]
  · intro ok st hread
    cases fro
    · simp [LatencyMonitor.read, LatencyMonitor.is_valid, hv] at hread
      exact hread.1
    · simp [LatencyMonitor.read, LatencyMonitor.is_valid, hv] at hread
      exact hread.1

/-- Witness for C6 on `wMon` with capture timestamp 500 and current time
1000: the e2e reading is updated and marked present. -/
theorem C6_read_e2e_witness :
    LatencyMonitor.read wMon true 500 1000 =
      some ⟨true,
        { wMon with
          e2e_latency_ := wMon.input_sample_spec_.ns_2_rtp_timestamp (1000 - 500),
          has_e2e_latency_ := true }⟩ :=
  (C6_read_e2e wMon true 500 1000 rfl).2.1 (by decide)

/-- Claim C7: when a call to `LatencyMonitor::update` reaches the
rate-control step (so the bound check passed), the call returns exactly the
verdict of `ResamplerReader::set_scaling` on the clamped coefficient: if the
resampler rejects it the call returns `false` (the out-of-bounds signal,
fatal to the session), and if it accepts, the call returns `true`. -/
theorem C7_resampler_reject {σ ρ : Type} (feM : FreqEstimator σ)
    (rsM : ResamplerReader ρ) (m : LatencyMonitor σ ρ) (ds : Bool) (dn : Nat)
    (ql : Option Nat) (sp : Nat) (u : UpdateResult σ ρ) (s : ScalingResult σ ρ)
    (h1 : LatencyMonitor.update feM rsM m ds dn ql sp = some u)
    (h2 : u.scaling = some s) :
    u.bounds_ok = true ∧
    (∃ rs, m.resampler_ = some rs ∧
      s.ok = (rsM.set_scaling rs s.sent_scaling).1) ∧
    (s.ok = false → u.ok = false) ∧
    (s.ok = true → u.ok = true) := by
  obtain ⟨fe, rs, hfe, hrs, hs, hok, hb, hst, hniq, hchk⟩ :=
    update_scaling_trace feM rsM m ds dn ql sp u s h1 h2
  refine ⟨hb, ⟨rs, hrs, ?_⟩, fun h => by rw [hok, h], fun h => by rw [hok, h]⟩
  rw [hs]
  simp only [LatencyMonitor.update_scaling_]

/-- Witness for C7 at the concrete `update` call `wUpd`: the accepting
resampler makes the call return `true`. -/
theorem C7_resampler_reject_witness : wu.ok = true :=
  (C7_resampler_reject wFeM wRsM wMon true 0 (some 100) 7 wu ws
    (Option.some_get _).symm (Option.some_get _).symm).2.2.2 rfl

/-- Claim C10: before any niq latency value is fed to the estimator,
`LatencyMonitor::update_scaling_` replaces a negative reading by zero: the
value handed to the estimator is `max(latency, 0)`, hence non-negative, and
(with a positive update interval) the estimator state advances by iterating
its `update` on exactly that clamped value. -/
theorem C10_negative_latency_clamped {σ ρ : Type} (m : LatencyMonitor σ ρ)
    (feM : FreqEstimator σ) (rsM : ResamplerReader ρ) (fe : σ) (rs : ρ)
    (sp : Nat) (lat : Int) :
    (m.update_scaling_ feM rsM fe rs sp lat).fe_input =
      (if lat < 0 then 0 else lat) ∧
    0 ≤ (m.update_scaling_ feM rsM fe rs sp lat).fe_input ∧
    (lat < 0 → (m.update_scaling_ feM rsM fe rs sp lat).fe_input = 0) ∧
    (0 < m.update_interval_ →
      (m.update_scaling_ feM rsM fe rs sp lat).state.fe_ =
        some ((fun st => feM.update st (if lat < 0 then 0 else lat))^[
          (m.update_scaling_ feM rsM fe rs sp lat).fe_updates] fe)) := by
  refine ⟨?_, ?_, ?_, ?_⟩
  · simp [LatencyMonitor.update_scaling_]
  · simp only [LatencyMonitor.update_scaling_]
    split <;> omega
  · intro hneg
    simp [LatencyMonitor.update_scaling_, hneg]
  · intro hui
    simp only [LatencyMonitor.update_scaling_, fe_loop]
    rw [fe_loop_aux_state]

/-- Witness for C10 on `wMon` with a negative latency reading −5: the
estimator receives 0. -/
theorem C10_negative_latency_clamped_witness :
    (wMon.update_scaling_ wFeM wRsM () () 7 (-5)).fe_input = 0 :=
  (C10_negative_latency_clamped wMon wFeM wRsM () () 7 (-5)).2.2.1 (by decide)

end Roc
